import Mathlib

/-!
Verification development for the disaster-response advisor (src/app.py).

The file shallowly embeds the three pieces the claims are about:
  * `decode_polyline` (src/app.py lines 119-143), the encoded-polyline decoder;
  * the route annotation loop inside `get_safe_route` (lines 88-106);
  * the post-HTTP logic of `get_safe_route` (lines 85-113) over an abstract
    routing-service response;
  * the submission pipeline of the main script (lines 213-248), with the
    collaborator replies supplied as parameters and the attempted stages traced.

Python unbounded integers are embedded as `Int`/`Nat`; the floating-point
values coming from the routing service are embedded as exact rationals
(`ℚ`).  Fallible dynamic behaviour (an uncaught Python exception such as an
IndexError) is embedded as `Option`, with `none` standing for the exception.
-/

/-! ## Polyline decoder (src/app.py lines 119-143) -/

/-- One execution of the inner `while True` group loop of `decode_polyline`
(lines 131-139): characters are consumed one by one; each contributes its low
five bits (`b & 0x1f`, embedded as `Int.emod b 32`, which agrees with Python's
two's-complement `&` for every integer) shifted by the running `shift`; the
loop stops on the first character whose value `b = ord(c) - 63` is below
`0x20`.  Returns `none` when the cursor runs past the end of the string
mid-group (Python line 132-133 `return coordinates`). -/
def readVarint : List Nat → Nat → Nat → Option (Nat × List Nat)
  | [], _, _ => none
  | c :: rest, shift, result =>
    let b : Int := (c : Int) - 63
    let result2 : Nat := result ||| ((b.emod 32).toNat <<< shift)
    if b < 32 then some (result2, rest) else readVarint rest (shift + 5) result2

/-- The signed delta of one decoded group (line 140):
`~(result >> 1) if (result & 1) else (result >> 1)`, with Python `~x = -x-1`. -/
def deltaOf (result : Nat) : Int :=
  if result % 2 = 1 then -(((result >>> 1 : Nat) : Int)) - 1 else ((result >>> 1 : Nat) : Int)

/-- Fuel-indexed embedding of the outer `while index < len(polyline_str)` loop
of `decode_polyline` (lines 128-141), exactly as the source executes it.  In
the source, `for coord in [lat, lng]: ... coord += delta` rebinds the
loop-local name `coord` only — Python integers are immutable — so the running
accumulators `lat` and `lng` are never updated and every appended pair is
`(lat, lng)` unchanged.  The dead local update is kept as an unused `let` to
mirror line 140.  `none` is returned only on fuel exhaustion (the termination
theorem shows length-plus-one fuel never exhausts). -/
def decodeLoopFuel : Nat → List Nat → Int → Int → Option (List (Int × Int))
  | 0, _, _, _ => none
  | _ + 1, [], _, _ => some []
  | f + 1, cs, lat, lng =>
    match readVarint cs 0 0 with
    | none => some []
    | some (r1, cs1) =>
      let _deadLat : Int := lat + deltaOf r1
      match readVarint cs1 0 0 with
      | none => some []
      | some (r2, cs2) =>
        let _deadLng : Int := lng + deltaOf r2
        match decodeLoopFuel f cs2 lat lng with
        | none => none
        | some rest => some ((lat, lng) :: rest)

/-- Modelled from the spec: the decoding loop as section 4.1 describes it —
"Add the decoded delta to the running accumulator for that axis" — i.e. the
standard polyline algorithm in which `lat` and `lng` really accumulate the
deltas.  This is the spec-side definition used to compare against the source's
`decodeLoopFuel`; the two differ exactly in the accumulator update. -/
def decodeLoopFuelSpec : Nat → List Nat → Int → Int → Option (List (Int × Int))
  | 0, _, _, _ => none
  | _ + 1, [], _, _ => some []
  | f + 1, cs, lat, lng =>
    match readVarint cs 0 0 with
    | none => some []
    | some (r1, cs1) =>
      let lat2 : Int := lat + deltaOf r1
      match readVarint cs1 0 0 with
      | none => some []
      | some (r2, cs2) =>
        let lng2 : Int := lng + deltaOf r2
        match decodeLoopFuelSpec f cs2 lat2 lng2 with
        | none => none
        | some rest => some ((lat2, lng2) :: rest)

/-- The character codes of a Python string (`ord` of each character). -/
def charCodes (s : String) : List Nat := s.data.map Char.toNat

/-- The decoded scaled-integer pairs of the source's decoder, run with enough
fuel (one more than the number of characters; sufficiency is proved below). -/
def decodeScaledList (cs : List Nat) : List (Int × Int) :=
  (decodeLoopFuel (cs.length + 1) cs 0 0).getD []

/-- Scaled-integer pairs of the spec-modelled decoder. -/
def decodeScaledListSpec (cs : List Nat) : List (Int × Int) :=
  (decodeLoopFuelSpec (cs.length + 1) cs 0 0).getD []

/-- The decoder run from a given accumulator state, with canonical fuel. -/
def decodeRun (cs : List Nat) (lat lng : Int) : List (Int × Int) :=
  (decodeLoopFuel (cs.length + 1) cs lat lng).getD []

/-- The spec decoder run from a given accumulator state, with canonical fuel. -/
def decodeRunSpec (cs : List Nat) (lat lng : Int) : List (Int × Int) :=
  (decodeLoopFuelSpec (cs.length + 1) cs lat lng).getD []

/-- `decode_polyline` (lines 119-143): the scaled integers times `1e-5`.  The
float product `lat * 1e-5` is embedded as the exact rational division by
`100000`. -/
def decode_polyline (s : String) : List (ℚ × ℚ) :=
  (decodeScaledList (charCodes s)).map (fun p => ((p.1 : ℚ) / 100000, (p.2 : ℚ) / 100000))

/-- Modelled from the spec: `decode` as section 4.1 intends it (deltas
accumulated), scaled to degrees. -/
def decode_polyline_spec (s : String) : List (ℚ × ℚ) :=
  (decodeScaledListSpec (charCodes s)).map (fun p => ((p.1 : ℚ) / 100000, (p.2 : ℚ) / 100000))

/-- Componentwise closeness of two coordinate lists: same length and each axis
within `1e-5` degrees. -/
def within1e5 (got want : List (ℚ × ℚ)) : Prop :=
  List.Forall₂ (fun p q => |p.1 - q.1| ≤ 1 / 100000 ∧ |p.2 - q.2| ≤ 1 / 100000) got want

/-! ## Route annotation (src/app.py lines 88-106) -/

/-- One raw routing-service step, as `get_safe_route` reads it: the maneuver
instruction text, the per-step distance in meters and duration in seconds
(floats in the JSON, embedded as exact rationals), and the optional road name
(`step.get('name', 'Unnamed Road')`). -/
structure RawStep where
  instruction : String
  distance : ℚ
  duration : ℚ
  name : Option String
deriving Repr, DecidableEq

/-- One annotated step dictionary as the loop body of lines 99-106 builds it:
`distance` and `duration` are formatted display strings, `blocked` is derived
from the blockage table, and `alternative` is the fixed string or `None`. -/
structure RouteStep where
  instruction : String
  distance : String
  duration : String
  road : String
  blocked : Bool
  alternative : Option String
deriving Repr, DecidableEq

/-- The hard-coded `simulated_blockages` dictionary (lines 88-92), read
through `.get(key, [])` (line 97): unknown keys give the empty list. -/
def simulated_blockages (d : String) : List String :=
  if d = "flood" then ["Main Street", "River Road"]
  else if d = "fire" then ["Forest Highway", "Mountain Pass"]
  else if d = "earthquake" then ["Bridge Approach", "Tunnel Road"]
  else []

/-- Python's `str.lower()`, embedded for the ASCII strings this program uses
(character-list map, so that it evaluates by kernel reduction). -/
def pyLower (s : String) : String := ⟨s.data.map Char.toLower⟩

/-- Floor of a rational as Python's float-to-int flooring would give it
(`q.num` and `q.den` are the reduced numerator and positive denominator). -/
def qfloor (q : ℚ) : Int := Int.fdiv q.num (q.den : Int)

/-- Round to the nearest integer, ties to even — the rounding Python's
`format(x, '.1f')` applies to the (here exactly represented) value `10 * x`. -/
def roundHalfEven (q : ℚ) : Int :=
  let f := qfloor q
  let frac := q - (f : ℚ)
  if frac < 1 / 2 then f
  else if 1 / 2 < frac then f + 1
  else if f % 2 = 0 then f else f + 1

/-- Python's `f"{q:.1f}"` for the nonnegative magnitudes this program formats:
one decimal digit, rounded half-to-even.  The source's service-provided floats
are embedded as exact rationals, so the rounding is applied to the rational. -/
def fmt1 (q : ℚ) : String :=
  let n : Int := roundHalfEven (10 * q)
  let m : Nat := n.natAbs
  (if n < 0 then "-" else "") ++ toString (m / 10) ++ "." ++ toString (m % 10)

/-- The loop body of lines 96-106: road name defaulted, blockage looked up
case-insensitively on the disaster type, distance rendered as
`f"{d/1000:.1f} km"`, duration as `f"{t/60:.1f} min"`, and the fixed
alternative attached exactly when blocked. -/
def annotateStep (disaster_type : String) (step : RawStep) : RouteStep :=
  let road_name := step.name.getD "Unnamed Road"
  let blockage := (simulated_blockages (pyLower disaster_type)).contains road_name
  { instruction := step.instruction
    distance := fmt1 (step.distance / 1000) ++ " km"
    duration := fmt1 (step.duration / 60) ++ " min"
    road := road_name
    blocked := blockage
    alternative := if blockage then some "Use Service Lane" else none }

/-- The whole annotation loop of lines 94-106 over the raw step list. -/
def annotateSteps (disaster_type : String) (steps : List RawStep) : List RouteStep :=
  steps.map (annotateStep disaster_type)

/-! ## Route assembly (src/app.py lines 77-117) -/

/-- One leg of a routing-service route (`route['legs'][i]`). -/
structure OsrmLeg where
  steps : List RawStep
deriving Repr, DecidableEq

/-- One route of the routing-service response. -/
structure OsrmRoute where
  distance : ℚ
  duration : ℚ
  geometry : String
  legs : List OsrmLeg
deriving Repr, DecidableEq

/-- The parsed JSON body of a successful HTTP exchange with the routing
service, with the fields lines 85-112 read.  `code` is `Option` because the
source reads it with `route_data.get('code')`. -/
structure OsrmResponse where
  code : Option String
  routes : List OsrmRoute
deriving Repr, DecidableEq

/-- The value `get_safe_route` returns: either the success dictionary of
lines 108-113 or the error dictionary `{"error": msg}`. -/
inductive RouteOutcome
  | ok (distance duration : ℚ) (steps : List RouteStep) (polyline : String)
  | err (msg : String)
deriving Repr, DecidableEq

/-- The post-HTTP logic of `get_safe_route` (lines 85-113) over a parsed
response.  `none` embeds an uncaught Python exception: indexing `routes[0]` or
`legs[0]` on an empty list raises IndexError, which the source's
`except` clauses (RequestException, KeyError) do not catch. -/
def get_safe_route (resp : OsrmResponse) (disaster_type : String) : Option RouteOutcome :=
  if resp.code ≠ some "Ok" then some (RouteOutcome.err "No route found")
  else
    match resp.routes with
    | [] => none
    | r :: _ =>
      match r.legs with
      | [] => none
      | leg :: _ =>
        some (RouteOutcome.ok r.distance r.duration
          (annotateSteps disaster_type leg.steps) r.geometry)

/-- The annotated steps contained in a `get_safe_route` result (an error
result contains none). -/
def outcomeSteps : Option RouteOutcome → List RouteStep
  | some (RouteOutcome.ok _ _ s _) => s
  | _ => []

/-! ## Submission pipeline (src/app.py lines 213-248) -/

/-- One shelter record as stage 1 consumes it (`best_shelter['lat']`,
`best_shelter['lon']`). -/
structure Shelter where
  lat : ℚ
  lon : ℚ
deriving Repr, DecidableEq

/-- What `analyze_emergency` hands back to the main flow: either the error
dictionary `{"error": msg}` or plain generated text. -/
inductive GenResult
  | errDict (msg : String)
  | text (t : String)
deriving Repr, DecidableEq

/-- The three collaborator calls of the submission flow, in source order. -/
inductive StageTag
  | lookup
  | route
  | gen
deriving Repr, DecidableEq

/-- The error kinds the main flow surfaces with `st.error`/`st.warning`
before `st.stop()`. -/
inductive SubmissionError
  | emptyDesc
  | noShelters
  | routeErr (msg : String)
  | genErr (msg : String)
deriving Repr, DecidableEq

/-- Python's `needle in hay` on strings: substring membership. -/
def pyContains (needle hay : String) : Bool := (hay.splitOn needle).length != 1

/-- Python's `str.strip()` with no argument: leading and trailing whitespace
removed (character-list form, so that it evaluates by kernel reduction). -/
def pyStrip (s : String) : String :=
  ⟨((s.data.dropWhile Char.isWhitespace).reverse.dropWhile Char.isWhitespace).reverse⟩

/-- The submission flow of lines 213-248, with the collaborator replies
(`shelters`, the routing response, the generation result) supplied as
parameters.  The first component records which collaborator calls were
attempted, in order.  The second embeds the flow's outcome: `none` is an
uncaught exception — stage 2's IndexError, or line 247's `analysis['error']`
applied to a plain string whose text happens to contain `"error"` (string
subscripts raise TypeError).  The empty-description guard of lines 214-216
runs before any stage. -/
def runSubmission (desc : String) (shelters : List Shelter) (resp : OsrmResponse)
    (disaster_type : String) (gen : GenResult) :
    List StageTag × Option (Except SubmissionError String) :=
  if pyStrip desc = "" then ([], some (Except.error SubmissionError.emptyDesc))
  else
    if shelters.isEmpty then ([StageTag.lookup], some (Except.error SubmissionError.noShelters))
    else
      match get_safe_route resp (pyLower disaster_type) with
      | none => ([StageTag.lookup, StageTag.route], none)
      | some (RouteOutcome.err m) =>
        ([StageTag.lookup, StageTag.route], some (Except.error (SubmissionError.routeErr m)))
      | some (RouteOutcome.ok _ _ _ _) =>
        match gen with
        | GenResult.errDict m =>
          ([StageTag.lookup, StageTag.route, StageTag.gen],
            some (Except.error (SubmissionError.genErr m)))
        | GenResult.text t =>
          if pyContains "error" t then
            ([StageTag.lookup, StageTag.route, StageTag.gen], none)
          else
            ([StageTag.lookup, StageTag.route, StageTag.gen], some (Except.ok t))

/-! ## Concrete instances used by witnesses and counterexamples -/

/-- A raw step on a road the flood table blocks: 100 meters, 60 seconds. -/
def rawStepEx : RawStep :=
  { instruction := "Turn left", distance := 100, duration := 60, name := some "Main Street" }

/-- A raw step on a road no table blocks. -/
def rawStepEx2 : RawStep :=
  { instruction := "Continue straight", distance := 2500, duration := 180, name := some "Oak Ave" }

/-- A routing-service response whose status code is not `Ok`. -/
def respBadEx : OsrmResponse := { code := some "NoRoute", routes := [] }

/-- A successful routing-service response with one route, one leg, two steps. -/
def respOkEx : OsrmResponse :=
  { code := some "Ok"
    routes := [{ distance := 2600, duration := 240, geometry := "_p~iF~ps|U"
                 legs := [{ steps := [rawStepEx, rawStepEx2] }] }] }

/-- A shelter record for the pipeline witness. -/
def shelterEx : Shelter := { lat := 12.9716, lon := 77.5946 }

/-! ## Decoder lemmas -/

/-- The inner group loop consumes at least one character whenever it
completes a group. -/
theorem readVarint_length_lt : ∀ (cs : List Nat) (sh r v : Nat) (rest : List Nat),
    readVarint cs sh r = some (v, rest) → rest.length < cs.length := by
  intro cs
  induction cs with
  | nil => intro sh r v rest h; simp [readVarint] at h
  | cons c tl ih =>
    intro sh r v rest h
    simp only [readVarint] at h
    split at h
    · cases h
      exact Nat.lt_succ_self _
    · exact Nat.lt_trans (ih _ _ _ _ h) (Nat.lt_succ_self _)

/-- Fuel exceeding the character count never exhausts: the source's decoder. -/
theorem decodeLoopFuel_isSome : ∀ (f : Nat) (cs : List Nat) (lat lng : Int),
    cs.length < f → (decodeLoopFuel f cs lat lng).isSome = true := by
  intro f
  induction f with
  | zero => intro cs lat lng h; exact absurd h (Nat.not_lt_zero _)
  | succ f ih =>
    intro cs lat lng h
    match cs with
    | [] => simp [decodeLoopFuel]
    | c :: tl =>
      simp only [decodeLoopFuel]
      cases h1 : readVarint (c :: tl) 0 0 with
      | none => simp
      | some p1 =>
        obtain ⟨r1, cs1⟩ := p1
        cases h2 : readVarint cs1 0 0 with
        | none => simp [h2]
        | some p2 =>
          obtain ⟨r2, cs2⟩ := p2
          have l1 := readVarint_length_lt _ _ _ _ _ h1
          have l2 := readVarint_length_lt _ _ _ _ _ h2
          have hf : cs2.length < f := by
            simp only [List.length_cons] at h l1
            omega
          have hrec := ih cs2 lat lng hf
          cases h3 : decodeLoopFuel f cs2 lat lng with
          | none => rw [h3] at hrec; simp at hrec
          | some rest => simp [h2, h3]

/-- Fuel exceeding the character count never exhausts: the spec decoder. -/
theorem decodeLoopFuelSpec_isSome : ∀ (f : Nat) (cs : List Nat) (lat lng : Int),
    cs.length < f → (decodeLoopFuelSpec f cs lat lng).isSome = true := by
  intro f
  induction f with
  | zero => intro cs lat lng h; exact absurd h (Nat.not_lt_zero _)
  | succ f ih =>
    intro cs lat lng h
    match cs with
    | [] => simp [decodeLoopFuelSpec]
    | c :: tl =>
      simp only [decodeLoopFuelSpec]
      cases h1 : readVarint (c :: tl) 0 0 with
      | none => simp
      | some p1 =>
        obtain ⟨r1, cs1⟩ := p1
        cases h2 : readVarint cs1 0 0 with
        | none => simp [h2]
        | some p2 =>
          obtain ⟨r2, cs2⟩ := p2
          have l1 := readVarint_length_lt _ _ _ _ _ h1
          have l2 := readVarint_length_lt _ _ _ _ _ h2
          have hf : cs2.length < f := by
            simp only [List.length_cons] at h l1
            omega
          have hrec := ih cs2 (lat + deltaOf r1) (lng + deltaOf r2) hf
          cases h3 : decodeLoopFuelSpec f cs2 (lat + deltaOf r1) (lng + deltaOf r2) with
          | none => rw [h3] at hrec; simp at hrec
          | some rest => simp [h2, h3]

/-- Any two sufficient fuels give the same result: the source's decoder. -/
theorem decodeLoopFuel_fuel_eq : ∀ (f1 f2 : Nat) (cs : List Nat) (lat lng : Int),
    cs.length < f1 → cs.length < f2 →
    decodeLoopFuel f1 cs lat lng = decodeLoopFuel f2 cs lat lng := by
  intro f1
  induction f1 with
  | zero => intro f2 cs lat lng h1 h2; exact absurd h1 (Nat.not_lt_zero _)
  | succ f1 ih =>
    intro f2 cs lat lng h1 h2
    match f2 with
    | 0 => exact absurd h2 (Nat.not_lt_zero _)
    | f2 + 1 =>
      match cs with
      | [] => rfl
      | c :: tl =>
        simp only [decodeLoopFuel]
        cases h3 : readVarint (c :: tl) 0 0 with
        | none => rfl
        | some p1 =>
          obtain ⟨r1, cs1⟩ := p1
          cases h4 : readVarint cs1 0 0 with
          | none => simp [h4]
          | some p2 =>
            obtain ⟨r2, cs2⟩ := p2
            have l1 := readVarint_length_lt _ _ _ _ _ h3
            have l2 := readVarint_length_lt _ _ _ _ _ h4
            have g1 : cs2.length < f1 := by
              simp only [List.length_cons] at h1 l1
              omega
            have g2 : cs2.length < f2 := by
              simp only [List.length_cons] at h2 l1
              omega
            simp [h4, ih f2 cs2 lat lng g1 g2]

/-- Any two sufficient fuels give the same result: the spec decoder. -/
theorem decodeLoopFuelSpec_fuel_eq : ∀ (f1 f2 : Nat) (cs : List Nat) (lat lng : Int),
    cs.length < f1 → cs.length < f2 →
    decodeLoopFuelSpec f1 cs lat lng = decodeLoopFuelSpec f2 cs lat lng := by
  intro f1
  induction f1 with
  | zero => intro f2 cs lat lng h1 h2; exact absurd h1 (Nat.not_lt_zero _)
  | succ f1 ih =>
    intro f2 cs lat lng h1 h2
    match f2 with
    | 0 => exact absurd h2 (Nat.not_lt_zero _)
    | f2 + 1 =>
      match cs with
      | [] => rfl
      | c :: tl =>
        simp only [decodeLoopFuelSpec]
        cases h3 : readVarint (c :: tl) 0 0 with
        | none => rfl
        | some p1 =>
          obtain ⟨r1, cs1⟩ := p1
          cases h4 : readVarint cs1 0 0 with
          | none => simp [h4]
          | some p2 =>
            obtain ⟨r2, cs2⟩ := p2
            have l1 := readVarint_length_lt _ _ _ _ _ h3
            have l2 := readVarint_length_lt _ _ _ _ _ h4
            have g1 : cs2.length < f1 := by
              simp only [List.length_cons] at h1 l1
              omega
            have g2 : cs2.length < f2 := by
              simp only [List.length_cons] at h2 l1
              omega
            simp [h4, ih f2 cs2 (lat + deltaOf r1) (lng + deltaOf r2) g1 g2]

theorem decodeScaledList_eq_run (cs : List Nat) : decodeScaledList cs = decodeRun cs 0 0 := rfl

theorem decodeScaledListSpec_eq_run (cs : List Nat) :
    decodeScaledListSpec cs = decodeRunSpec cs 0 0 := rfl

/-- Fuel-free unfolding of one outer-loop iteration of the source's decoder. -/
theorem decodeRun_eq (cs : List Nat) (lat lng : Int) :
    decodeRun cs lat lng =
      match readVarint cs 0 0 with
      | none => []
      | some (r1, cs1) =>
        match readVarint cs1 0 0 with
        | none => []
        | some (_, cs2) => (lat, lng) :: decodeRun cs2 lat lng := by
  match cs with
  | [] => rfl
  | c :: tl =>
    rw [decodeRun]
    simp only [decodeLoopFuel]
    cases h1 : readVarint (c :: tl) 0 0 with
    | none => rfl
    | some p1 =>
      obtain ⟨r1, cs1⟩ := p1
      cases h2 : readVarint cs1 0 0 with
      | none => simp [h2]
      | some p2 =>
        obtain ⟨r2, cs2⟩ := p2
        have l1 := readVarint_length_lt _ _ _ _ _ h1
        have l2 := readVarint_length_lt _ _ _ _ _ h2
        have g1 : cs2.length < (c :: tl).length := Nat.lt_trans l2 l1
        have hfe : decodeLoopFuel ((c :: tl).length) cs2 lat lng
            = decodeLoopFuel (cs2.length + 1) cs2 lat lng :=
          decodeLoopFuel_fuel_eq _ _ _ _ _ g1 (Nat.lt_succ_self _)
        have hs := decodeLoopFuel_isSome (cs2.length + 1) cs2 lat lng (Nat.lt_succ_self _)
        cases h3 : decodeLoopFuel (cs2.length + 1) cs2 lat lng with
        | none => rw [h3] at hs; simp at hs
        | some rest =>
          rw [h3] at hfe
          simp only [List.length_cons] at hfe
          simp [h2, hfe, decodeRun, h3]

/-- Fuel-free unfolding of one outer-loop iteration of the spec decoder. -/
theorem decodeRunSpec_eq (cs : List Nat) (lat lng : Int) :
    decodeRunSpec cs lat lng =
      match readVarint cs 0 0 with
      | none => []
      | some (r1, cs1) =>
        match readVarint cs1 0 0 with
        | none => []
        | some (r2, cs2) =>
          (lat + deltaOf r1, lng + deltaOf r2) ::
            decodeRunSpec cs2 (lat + deltaOf r1) (lng + deltaOf r2) := by
  match cs with
  | [] => rfl
  | c :: tl =>
    rw [decodeRunSpec]
    simp only [decodeLoopFuelSpec]
    cases h1 : readVarint (c :: tl) 0 0 with
    | none => rfl
    | some p1 =>
      obtain ⟨r1, cs1⟩ := p1
      cases h2 : readVarint cs1 0 0 with
      | none => simp [h2]
      | some p2 =>
        obtain ⟨r2, cs2⟩ := p2
        have l1 := readVarint_length_lt _ _ _ _ _ h1
        have l2 := readVarint_length_lt _ _ _ _ _ h2
        have g1 : cs2.length < (c :: tl).length := Nat.lt_trans l2 l1
        have hfe : decodeLoopFuelSpec ((c :: tl).length) cs2 (lat + deltaOf r1) (lng + deltaOf r2)
            = decodeLoopFuelSpec (cs2.length + 1) cs2 (lat + deltaOf r1) (lng + deltaOf r2) :=
          decodeLoopFuelSpec_fuel_eq _ _ _ _ _ g1 (Nat.lt_succ_self _)
        have hs := decodeLoopFuelSpec_isSome (cs2.length + 1) cs2
          (lat + deltaOf r1) (lng + deltaOf r2) (Nat.lt_succ_self _)
        cases h3 : decodeLoopFuelSpec (cs2.length + 1) cs2 (lat + deltaOf r1) (lng + deltaOf r2) with
        | none => rw [h3] at hs; simp at hs
        | some rest =>
          rw [h3] at hfe
          simp only [List.length_cons] at hfe
          simp [h2, hfe, decodeRunSpec, h3]

/-- A group completed inside a truncated string is the same group the full
string yields, and the truncated leftover is a truncation of the full
leftover. -/
theorem readVarint_take : ∀ (cs : List Nat) (k sh r v : Nat) (rest2 : List Nat),
    readVarint (cs.take k) sh r = some (v, rest2) →
    ∃ rest j, readVarint cs sh r = some (v, rest) ∧ rest2 = rest.take j := by
  intro cs
  induction cs with
  | nil => intro k sh r v rest2 h; simp [readVarint] at h
  | cons c tl ih =>
    intro k sh r v rest2 h
    cases k with
    | zero => simp [readVarint] at h
    | succ k =>
      simp only [List.take_succ_cons] at h
      simp only [readVarint] at h ⊢
      split at h
      · cases h
        exact ⟨tl, k, by rw [if_pos (by assumption)], rfl⟩
      · rw [if_neg (by assumption)]
        exact ih k _ _ _ _ h

/-- Decoding a truncated character list yields a leading segment of decoding
the full list: the source's decoder (any accumulator state). -/
theorem decodeRun_take_append : ∀ (n : Nat) (cs : List Nat) (k : Nat) (lat lng : Int),
    cs.length ≤ n →
    ∃ t, decodeRun (cs.take k) lat lng ++ t = decodeRun cs lat lng := by
  intro n
  induction n with
  | zero =>
    intro cs k lat lng h
    have : cs = [] := List.length_eq_zero.mp (Nat.le_zero.mp h)
    subst this
    exact ⟨[], by simp⟩
  | succ n ih =>
    intro cs k lat lng h
    cases h1 : readVarint (cs.take k) 0 0 with
    | none =>
      refine ⟨decodeRun cs lat lng, ?_⟩
      rw [decodeRun_eq (cs.take k), h1]
      simp
    | some p1 =>
      obtain ⟨r1, d1⟩ := p1
      obtain ⟨e1, j1, he1, hd1⟩ := readVarint_take cs k 0 0 r1 d1 h1
      subst hd1
      cases h2 : readVarint (e1.take j1) 0 0 with
      | none =>
        refine ⟨decodeRun cs lat lng, ?_⟩
        rw [decodeRun_eq (cs.take k), h1]
        simp [h2]
      | some p2 =>
        obtain ⟨r2, d2⟩ := p2
        obtain ⟨e2, j2, he2, hd2⟩ := readVarint_take e1 j1 0 0 r2 d2 h2
        subst hd2
        have le1 := readVarint_length_lt _ _ _ _ _ he1
        have le2 := readVarint_length_lt _ _ _ _ _ he2
        have hle : e2.length ≤ n := by omega
        obtain ⟨t, ht⟩ := ih e2 j2 lat lng hle
        refine ⟨t, ?_⟩
        rw [decodeRun_eq (cs.take k), decodeRun_eq cs]
        simp only [h1, he1, h2, he2]
        simp [ht]

/-- Decoding a truncated character list yields a leading segment of decoding
the full list: the spec decoder (any accumulator state). -/
theorem decodeRunSpec_take_append : ∀ (n : Nat) (cs : List Nat) (k : Nat) (lat lng : Int),
    cs.length ≤ n →
    ∃ t, decodeRunSpec (cs.take k) lat lng ++ t = decodeRunSpec cs lat lng := by
  intro n
  induction n with
  | zero =>
    intro cs k lat lng h
    have : cs = [] := List.length_eq_zero.mp (Nat.le_zero.mp h)
    subst this
    exact ⟨[], by simp⟩
  | succ n ih =>
    intro cs k lat lng h
    cases h1 : readVarint (cs.take k) 0 0 with
    | none =>
      refine ⟨decodeRunSpec cs lat lng, ?_⟩
      rw [decodeRunSpec_eq (cs.take k), h1]
      simp
    | some p1 =>
      obtain ⟨r1, d1⟩ := p1
      obtain ⟨e1, j1, he1, hd1⟩ := readVarint_take cs k 0 0 r1 d1 h1
      subst hd1
      cases h2 : readVarint (e1.take j1) 0 0 with
      | none =>
        refine ⟨decodeRunSpec cs lat lng, ?_⟩
        rw [decodeRunSpec_eq (cs.take k), h1]
        simp [h2]
      | some p2 =>
        obtain ⟨r2, d2⟩ := p2
        obtain ⟨e2, j2, he2, hd2⟩ := readVarint_take e1 j1 0 0 r2 d2 h2
        subst hd2
        have le1 := readVarint_length_lt _ _ _ _ _ he1
        have le2 := readVarint_length_lt _ _ _ _ _ he2
        have hle : e2.length ≤ n := by omega
        obtain ⟨t, ht⟩ := ih e2 j2 (lat + deltaOf r1) (lng + deltaOf r2) hle
        refine ⟨t, ?_⟩
        rw [decodeRunSpec_eq (cs.take k), decodeRunSpec_eq cs]
        simp only [h1, he1, h2, he2]
        simp [ht]

/-! ## Claim theorems -/

/-- Rounding a value that is exactly an integer returns that integer. -/
theorem roundHalfEven_intCast (n : Int) : roundHalfEven ((n : ℚ)) = n := by
  rw [roundHalfEven, qfloor]
  simp [Rat.num_intCast, Rat.den_intCast, Int.fdiv_one]

/-- C1: the claim states that `decode_polyline` reproduces the encoded
coordinate sequence (each decoded delta being added to the running per-axis
accumulator), with the standard example decoding to
(38.5,-120.2),(40.7,-120.95),(43.252,-126.453) within 1e-5 per axis.  The code
is a slip: `coord += delta` rebinds the Python loop variable, never the
accumulators, so `decode_polyline` returns three (0,0) pairs on the example —
more than 1e-5 away from the stated coordinates — while the spec-modelled
decoder (accumulators really updated) returns exactly the stated
coordinates. -/
theorem decode_polyline_accumulator_slip :
    decode_polyline "_p~iF~ps|U_ulLnnqC_mqNvxq`@" = [((0 : ℚ), 0), (0, 0), (0, 0)] ∧
    decode_polyline_spec "_p~iF~ps|U_ulLnnqC_mqNvxq`@"
      = [((38.5 : ℚ), -120.2), (40.7, -120.95), (43.252, -126.453)] ∧
    ¬ within1e5 (decode_polyline "_p~iF~ps|U_ulLnnqC_mqNvxq`@")
        [((38.5 : ℚ), -120.2), (40.7, -120.95), (43.252, -126.453)] ∧
    within1e5 (decode_polyline_spec "_p~iF~ps|U_ulLnnqC_mqNvxq`@")
        [((38.5 : ℚ), -120.2), (40.7, -120.95), (43.252, -126.453)] := by
  have hcode : decode_polyline "_p~iF~ps|U_ulLnnqC_mqNvxq`@" = [((0 : ℚ), 0), (0, 0), (0, 0)] := by
    rw [decode_polyline,
      show decodeScaledList (charCodes "_p~iF~ps|U_ulLnnqC_mqNvxq`@")
        = [(0, 0), (0, 0), (0, 0)] from by decide]
    norm_num
  have hspec : decode_polyline_spec "_p~iF~ps|U_ulLnnqC_mqNvxq`@"
      = [((38.5 : ℚ), -120.2), (40.7, -120.95), (43.252, -126.453)] := by
    rw [decode_polyline_spec,
      show decodeScaledListSpec (charCodes "_p~iF~ps|U_ulLnnqC_mqNvxq`@")
        = [(3850000, -12020000), (4070000, -12095000), (4325200, -12645300)] from by decide]
    norm_num
  refine ⟨hcode, hspec, ?_, ?_⟩
  · intro h
    rw [hcode, within1e5] at h
    cases h with
    | cons h1 h2 =>
      obtain ⟨ha, _⟩ := h1
      rw [abs_le] at ha
      norm_num at ha
  · rw [hspec, within1e5]
    refine List.Forall₂.cons ⟨by norm_num, by norm_num⟩ ?_
    refine List.Forall₂.cons ⟨by norm_num, by norm_num⟩ ?_
    exact List.Forall₂.cons ⟨by norm_num, by norm_num⟩ List.Forall₂.nil

/-- C9: `decode_polyline` applied to the empty string returns the empty
coordinate sequence (and, being a total function, raises nothing). -/
theorem decode_polyline_empty : decode_polyline "" = [] := rfl

/-- C10: `decode_polyline` terminates on every input string: fuel equal to the
character count plus one never exhausts (every inner-loop step consumes one
character or returns), and `decode_polyline` is exactly the scaled result of
that bounded run. -/
theorem decode_polyline_terminates (s : String) :
    (decodeLoopFuel ((charCodes s).length + 1) (charCodes s) 0 0).isSome = true ∧
    decode_polyline s
      = ((decodeLoopFuel ((charCodes s).length + 1) (charCodes s) 0 0).getD []).map
          (fun p => ((p.1 : ℚ) / 100000, (p.2 : ℚ) / 100000)) :=
  ⟨decodeLoopFuel_isSome _ _ _ _ (Nat.lt_succ_self _), rfl⟩

/-- C6: decoding any truncated character list returns exactly the leading
coordinates that were fully decoded before the cut (the partially decoded pair
is dropped), for the source's decoder and for the spec-modelled decoder alike;
no error is raised (both are total functions).  Concretely, the standard
example cut after twelve characters — two characters into the third group —
yields exactly the first decoded pair.  The coordinate values themselves
reflect the accumulator slip recorded under C1. -/
theorem decode_polyline_truncation :
    (∀ (cs : List Nat) (k : Nat), ∃ t, decodeScaledList (cs.take k) ++ t = decodeScaledList cs) ∧
    (∀ (cs : List Nat) (k : Nat),
      ∃ t, decodeScaledListSpec (cs.take k) ++ t = decodeScaledListSpec cs) ∧
    decode_polyline "_p~iF~ps|U_u" = (decode_polyline "_p~iF~ps|U_ulLnnqC_mqNvxq`@").take 1 ∧
    decode_polyline_spec "_p~iF~ps|U_u"
      = (decode_polyline_spec "_p~iF~ps|U_ulLnnqC_mqNvxq`@").take 1 := by
  refine ⟨?_, ?_, ?_, ?_⟩
  · intro cs k
    rw [decodeScaledList_eq_run, decodeScaledList_eq_run]
    exact decodeRun_take_append cs.length cs k 0 0 (le_refl _)
  · intro cs k
    rw [decodeScaledListSpec_eq_run, decodeScaledListSpec_eq_run]
    exact decodeRunSpec_take_append cs.length cs k 0 0 (le_refl _)
  · rw [decode_polyline, decode_polyline,
      show decodeScaledList (charCodes "_p~iF~ps|U_u") = [(0, 0)] from by decide,
      show decodeScaledList (charCodes "_p~iF~ps|U_ulLnnqC_mqNvxq`@")
        = [(0, 0), (0, 0), (0, 0)] from by decide]
    norm_num
  · rw [decode_polyline_spec, decode_polyline_spec,
      show decodeScaledListSpec (charCodes "_p~iF~ps|U_u") = [(3850000, -12020000)] from by decide,
      show decodeScaledListSpec (charCodes "_p~iF~ps|U_ulLnnqC_mqNvxq`@")
        = [(3850000, -12020000), (4070000, -12095000), (4325200, -12645300)] from by decide]
    norm_num

/-- C2 counterexample: the claim states each RouteStep carries the raw per-step
distance in meters and duration in seconds as numbers.  In the source the
fields are display strings — kilometers and minutes formatted to one decimal
with unit suffixes: a 100-meter, 60-second raw step is annotated with
distance "0.1 km" and duration "1.0 min", not the numbers 100 and 60. -/
theorem routeStep_fields_not_raw_numbers :
    (annotateStep "flood" rawStepEx).distance = "0.1 km" ∧
    (annotateStep "flood" rawStepEx).duration = "1.0 min" ∧
    (annotateStep "flood" rawStepEx).distance ≠ "100" ∧
    (annotateStep "flood" rawStepEx).duration ≠ "60" := by
  have h1 : fmt1 ((100 : ℚ) / 1000) = "0.1" := by
    rw [fmt1, show (10 : ℚ) * (100 / 1000) = ((1 : Int) : ℚ) from by norm_num,
      roundHalfEven_intCast]
    decide
  have h2 : fmt1 ((60 : ℚ) / 60) = "1.0" := by
    rw [fmt1, show (10 : ℚ) * (60 / 60) = ((10 : Int) : ℚ) from by norm_num,
      roundHalfEven_intCast]
    decide
  have hd : (annotateStep "flood" rawStepEx).distance = "0.1 km" := by
    show fmt1 (rawStepEx.distance / 1000) ++ " km" = "0.1 km"
    rw [show rawStepEx.distance = (100 : ℚ) from rfl, h1]
    decide
  have ht : (annotateStep "flood" rawStepEx).duration = "1.0 min" := by
    show fmt1 (rawStepEx.duration / 60) ++ " min" = "1.0 min"
    rw [show rawStepEx.duration = (60 : ℚ) from rfl, h2]
    decide
  refine ⟨hd, ht, ?_, ?_⟩
  · rw [hd]; decide
  · rw [ht]; decide

/-- C2 amended: for every successful `get_safe_route` result, each RouteStep
carries the per-step distance as the display string of kilometers to one
decimal suffixed " km", and the duration as the display string of minutes to
one decimal suffixed " min" (derived from the raw meters and seconds of the
corresponding raw step of the first route's first leg). -/
theorem routeStep_fields_formatted (resp : OsrmResponse) (dt : String) (d t : ℚ)
    (steps : List RouteStep) (p : String) (r : OsrmRoute) (rs : List OsrmRoute)
    (leg : OsrmLeg) (ls : List OsrmLeg)
    (hr : resp.routes = r :: rs) (hl : r.legs = leg :: ls)
    (hok : get_safe_route resp dt = some (RouteOutcome.ok d t steps p)) :
    steps.map RouteStep.distance
      = leg.steps.map (fun raw => fmt1 (raw.distance / 1000) ++ " km") ∧
    steps.map RouteStep.duration
      = leg.steps.map (fun raw => fmt1 (raw.duration / 60) ++ " min") := by
  rw [get_safe_route] at hok
  split at hok
  · simp at hok
  · rw [hr] at hok
    simp only [hl] at hok
    simp only [Option.some.injEq, RouteOutcome.ok.injEq] at hok
    obtain ⟨-, -, hsteps, -⟩ := hok
    subst hsteps
    constructor
    · simp [annotateSteps, annotateStep, List.map_map, Function.comp]
    · simp [annotateSteps, annotateStep, List.map_map, Function.comp]

/-- Witness for the amended C2 theorem at a concrete successful response. -/
theorem routeStep_fields_formatted_witness :
    (annotateSteps "flood" [rawStepEx, rawStepEx2]).map RouteStep.distance
      = [rawStepEx, rawStepEx2].map (fun raw => fmt1 (raw.distance / 1000) ++ " km") ∧
    (annotateSteps "flood" [rawStepEx, rawStepEx2]).map RouteStep.duration
      = [rawStepEx, rawStepEx2].map (fun raw => fmt1 (raw.duration / 60) ++ " min") :=
  routeStep_fields_formatted respOkEx "flood" 2600 240
    (annotateSteps "flood" [rawStepEx, rawStepEx2]) "_p~iF~ps|U"
    { distance := 2600, duration := 240, geometry := "_p~iF~ps|U"
      legs := [{ steps := [rawStepEx, rawStepEx2] }] } []
    { steps := [rawStepEx, rawStepEx2] } [] rfl rfl rfl

/-- C3: in every annotated step, the alternative field is present exactly when
the step is blocked, and its value can only be the fixed string
"Use Service Lane". -/
theorem routeStep_alternative_iff_blocked (dt : String) (raws : List RawStep) :
    ∀ s ∈ annotateSteps dt raws,
      ((s.blocked = true) ↔ s.alternative ≠ none) ∧
      ∀ a, s.alternative = some a → a = "Use Service Lane" := by
  intro s hs
  rw [annotateSteps, List.mem_map] at hs
  obtain ⟨raw, hmem, rfl⟩ := hs
  simp only [annotateStep]
  cases hb : (simulated_blockages (pyLower dt)).contains (raw.name.getD "Unnamed Road") with
  | true =>
    refine ⟨by simp, ?_⟩
    intro a ha
    simp at ha
    exact ha.symm
  | false =>
    refine ⟨by simp, ?_⟩
    intro a ha
    simp at ha

/-- Witness for C3 at a concrete blocked step. -/
theorem routeStep_alternative_iff_blocked_witness :
    ((annotateStep "flood" rawStepEx).blocked = true ↔
      (annotateStep "flood" rawStepEx).alternative ≠ none) :=
  (routeStep_alternative_iff_blocked "flood" [rawStepEx] (annotateStep "flood" rawStepEx)
    (by simp [annotateSteps])).1

/-- C4: whenever the routing response's status code is not `Ok`,
`get_safe_route` returns the "No route found" error dictionary — the annotator
is never reached, and the returned value contains no annotated steps. -/
theorem get_safe_route_non_ok (resp : OsrmResponse) (dt : String)
    (h : resp.code ≠ some "Ok") :
    get_safe_route resp dt = some (RouteOutcome.err "No route found") ∧
    outcomeSteps (get_safe_route resp dt) = [] := by
  have he : get_safe_route resp dt = some (RouteOutcome.err "No route found") := by
    rw [get_safe_route, if_pos h]
  exact ⟨he, by rw [he]; rfl⟩

/-- Witness for C4 at a concrete non-Ok response. -/
theorem get_safe_route_non_ok_witness :
    get_safe_route respBadEx "flood" = some (RouteOutcome.err "No route found") ∧
    outcomeSteps (get_safe_route respBadEx "flood") = [] :=
  get_safe_route_non_ok respBadEx "flood" (by decide)

/-- C7: annotation depends on the disaster type only through its lowercased
form, so any two case variants (equal after lowercasing) yield identical
annotated steps — in particular identical blockage results. -/
theorem annotate_case_insensitive (d1 d2 : String) (raws : List RawStep)
    (h : pyLower d1 = pyLower d2) :
    annotateSteps d1 raws = annotateSteps d2 raws := by
  unfold annotateSteps
  congr 1
  funext raw
  simp only [annotateStep, h]

/-- Witness for C7: "FLOOD" and "flood" annotate identically. -/
theorem annotate_case_insensitive_witness :
    annotateSteps "FLOOD" [rawStepEx, rawStepEx2] = annotateSteps "flood" [rawStepEx, rawStepEx2] :=
  annotate_case_insensitive "FLOOD" "flood" [rawStepEx, rawStepEx2] (by decide)

/-- C8: a disaster type whose lowercased form is none of the three table keys
marks no step as blocked. -/
theorem annotate_unknown_disaster (dt : String) (raws : List RawStep)
    (h1 : pyLower dt ≠ "flood") (h2 : pyLower dt ≠ "fire") (h3 : pyLower dt ≠ "earthquake") :
    ∀ s ∈ annotateSteps dt raws, s.blocked = false := by
  intro s hs
  rw [annotateSteps, List.mem_map] at hs
  obtain ⟨raw, hmem, rfl⟩ := hs
  simp only [annotateStep]
  rw [simulated_blockages, if_neg h1, if_neg h2, if_neg h3]
  rfl

/-- Witness for C8: "Volcano" blocks nothing, even on a road the flood table
lists. -/
theorem annotate_unknown_disaster_witness :
    (annotateStep "Volcano" rawStepEx).blocked = false :=
  annotate_unknown_disaster "Volcano" [rawStepEx] (by decide) (by decide) (by decide)
    (annotateStep "Volcano" rawStepEx) (by simp [annotateSteps])

/-- C5: the submission pipeline is fail-fast.  A stage's collaborator call
appears in the attempted-call trace only if every earlier stage succeeded: the
routing call is attempted only when the description was non-blank and the
shelter lookup returned results, and the text-generation call only when,
additionally, the routing stage produced a successful route. -/
theorem submission_fail_fast (desc : String) (shelters : List Shelter)
    (resp : OsrmResponse) (dt : String) (gen : GenResult) :
    (StageTag.lookup ∈ (runSubmission desc shelters resp dt gen).1 → pyStrip desc ≠ "") ∧
    (StageTag.route ∈ (runSubmission desc shelters resp dt gen).1 →
      pyStrip desc ≠ "" ∧ shelters ≠ []) ∧
    (StageTag.gen ∈ (runSubmission desc shelters resp dt gen).1 →
      pyStrip desc ≠ "" ∧ shelters ≠ [] ∧
      ∃ d t steps p, get_safe_route resp (pyLower dt) = some (RouteOutcome.ok d t steps p)) := by
  by_cases hd : pyStrip desc = ""
  · simp [runSubmission, hd]
  · by_cases hsh : shelters.isEmpty
    · have htr : (runSubmission desc shelters resp dt gen).1 = [StageTag.lookup] := by
        simp [runSubmission, hd, hsh]
      rw [htr]
      refine ⟨fun _ => hd, fun hg => absurd hg (by simp), fun hg => absurd hg (by simp)⟩
    · have hne : shelters ≠ [] := by
        intro hh
        subst hh
        simp at hsh
      cases hro : get_safe_route resp (pyLower dt) with
      | none =>
        have htr : (runSubmission desc shelters resp dt gen).1
            = [StageTag.lookup, StageTag.route] := by
          simp [runSubmission, hd, hsh, hro]
        rw [htr]
        refine ⟨fun _ => hd, fun _ => ⟨hd, hne⟩, fun hg => absurd hg (by simp)⟩
      | some oc =>
        cases oc with
        | err m =>
          have htr : (runSubmission desc shelters resp dt gen).1
              = [StageTag.lookup, StageTag.route] := by
            simp [runSubmission, hd, hsh, hro]
          rw [htr]
          refine ⟨fun _ => hd, fun _ => ⟨hd, hne⟩, fun hg => absurd hg (by simp)⟩
        | ok d t steps p =>
          have htr : (runSubmission desc shelters resp dt gen).1
              = [StageTag.lookup, StageTag.route, StageTag.gen] := by
            cases gen with
            | errDict m => simp [runSubmission, hd, hsh, hro]
            | text txt =>
              by_cases hc : pyContains "error" txt = true
              · simp [runSubmission, hd, hsh, hro, hc]
              · simp [runSubmission, hd, hsh, hro, hc]
          rw [htr]
          exact ⟨fun _ => hd, fun _ => ⟨hd, hne⟩, fun _ => ⟨hd, hne, d, t, steps, p, rfl⟩⟩

/-- Witness for C5: with a non-blank description, one shelter, and a non-Ok
routing response, the routing stage is attempted, so the earlier stages
succeeded. -/
theorem submission_fail_fast_witness :
    pyStrip "help" ≠ "" ∧ ([shelterEx] : List Shelter) ≠ [] :=
  (submission_fail_fast "help" [shelterEx] respBadEx "Flood" (GenResult.text "ok")).2.1
    (by decide)
